import Mathlib

/-!
Shallow embedding of `predict_mobile_lstm.py`: a script that runs pretrained
LSTM classifiers over precomputed feature streams and fuses their per-class
score arrays with a softmax-of-summed-scores ensemble.

Arrays are modelled as Lean lists (matrices as lists of rows) over a linearly
ordered field; the real-valued softmax parts are instantiated at `ℝ` with
`Real.exp`.  Keras models and the feature generator are opaque inputs: a model
is a record carrying its declared input shape together with the function the
framework evaluates.
-/

namespace PredictMobileLstm

/-- One row of the class table `oClasses.dfClass`: short code and detail text. -/
structure ClassRow where
  sClass : String
  sDetail : String
deriving Repr, DecidableEq

/-- Modelled from the spec: `VideoClasses` (from the absent `datagenerator`
module) is "a class wrapper for reading a label table from a file"; the table
holds one row (id, short code, detail string) per class, indexed 0..n-1. -/
structure VideoClasses where
  dfClass : List ClassRow
deriving Repr, DecidableEq

/-- Modelled from the spec: `FeaturesGenerator` (from the absent
`datagenerator` module) is "a batched generator over precomputed feature
files"; it detects the feature files of a directory and keeps one sample row
(with ground-truth label `sLabel`) per detected file. -/
structure FeaturesGenerator where
  sampleLabels : List String
deriving Repr, DecidableEq

/-- Number of detected feature files: one sample per detected file. -/
def FeaturesGenerator.nSamples (gen : FeaturesGenerator) : Nat :=
  gen.sampleLabels.length

/-- A numpy array as consumed by `predict`: its shape tuple plus its entries. -/
structure NpArray (α : Type u) where
  shape : List Nat
  data : List α
deriving Repr, DecidableEq

/-- A loaded keras model as used by `predict`: `input_shape[1:]` (the declared
input shape without the batch dimension) and the opaque inference function,
returning the per-class output vector for the single sample of the batch. -/
structure KerasModel (α : Type u) where
  inputShapeTail : List Nat
  run : NpArray α → List α

/-- A loaded keras model as used by `predict_generator`: the opaque
`keModel.predict_generator` call, returning one per-class row per sample the
framework actually produced. -/
structure GenModel (α : Type u) where
  runGen : FeaturesGenerator → List (List α)

/-- Python slice `l[-n:]`: the last `n` elements, except that `-0` means the
whole list (`l[-0:] = l[0:] = l`). -/
def lastSlice (n : Nat) (l : List α) : List α :=
  if n = 0 then l else l.drop (l.length - n)

/-- numpy `argsort`: a permutation of the index range ordered by ascending
value (insertion sort as the concrete sort; the claims do not depend on the
tie order). -/
def argsort [LinearOrder α] [Inhabited α] (l : List α) : List Nat :=
  List.insertionSort (fun i j => l.getD i default ≤ l.getD j default)
    (List.range l.length)

/-- The `arTopLabels` array of `predict`: `arProbas.argsort()[-nTop:][::-1]`,
the indices of the `nTop` largest entries, best first. -/
def arTopLabels [LinearOrder α] [Inhabited α] (arProbas : List α) (nTop : Nat) :
    List Nat :=
  (lastSlice nTop (argsort arProbas)).reverse

/-- numpy `argmax`: index of the first occurrence of the maximal entry
(0 on the empty list, where numpy errors instead). -/
def argmaxList [LinearOrder α] : List α → Nat
  | [] => 0
  | x :: xs => if x < xs.getD (argmaxList xs) x then argmaxList xs + 1 else 0

/-- Row label for class index `i`: `oClasses.dfClass.sClass[i] + " " +
oClasses.dfClass.sDetail[i]`. -/
def classText (oClasses : VideoClasses) (i : Nat) : String :=
  (oClasses.dfClass.getD i ⟨"", ""⟩).sClass ++ " " ++
    (oClasses.dfClass.getD i ⟨"", ""⟩).sDetail

/-- The fallible accesses of one `predict` print-loop iteration (lines 37-41)
and of the final line-42 lookup: `arTopLabels[i]` raises IndexError when `i`
is out of range of the top-label array, and the scalar class-table lookups
`oClasses.dfClass.sClass[arTopLabels[i]]` / `.sDetail[...]` raise KeyError
when the table has no row for that class index (`arTopProbas[i]` shares the
first bound, since both arrays have the same length).  Returns the raised
error, if any. -/
def loopErr (oClasses : VideoClasses) (topLabels : List Nat) (i : Nat) :
    Option String :=
  if i < topLabels.length then
    if topLabels.getD i 0 < oClasses.dfClass.length then none
    else some "KeyError"
  else some "IndexError"

/-- `predict`: check the feature shape against the model's declared input
shape, run the network on the one-sample batch (`arProbas`), rank the labels
(`arTopLabels` / `arTopProbas`), run the print loop over `i in range(nTop)`
(whose out-of-range and missing-class-row accesses raise, modelled by the
first raised `loopErr`), redo the index-0 lookup of line 42, and return the
top label index, its class text and its probability. -/
def predict [LinearOrder α] [Inhabited α] (keModel : KerasModel α)
    (arFeatures : NpArray α) (oClasses : VideoClasses) (nTop : Nat := 3) :
    Except String (Nat × String × α) :=
  if keModel.inputShapeTail ≠ arFeatures.shape then
    Except.error "Incorrect shapes"
  else
    match (List.range nTop).findSome?
        (loopErr oClasses (arTopLabels (keModel.run arFeatures) nTop)) with
    | some e => Except.error e
    | none =>
      match loopErr oClasses (arTopLabels (keModel.run arFeatures) nTop) 0 with
      | some e => Except.error e
      | none =>
        Except.ok ((arTopLabels (keModel.run arFeatures) nTop).getD 0 0,
          classText oClasses
            ((arTopLabels (keModel.run arFeatures) nTop).getD 0 0),
          ((arTopLabels (keModel.run arFeatures) nTop).map
            (fun i => (keModel.run arFeatures).getD i default)).getD 0
            default)

/-- Accuracy `np.mean(liLabels == oClasses.dfClass.loc[arPred, "sClass"])`:
the fraction of samples whose ground-truth label equals the short code of the
predicted class (exact rational mean; the two sequences have equal length in
every call site, otherwise pandas raises). -/
def accuracyScore (oClasses : VideoClasses) (liLabels : List String)
    (arPred : List Nat) : ℚ :=
  (List.zipWith
      (fun lab p => if lab = (oClasses.dfClass.getD p ⟨"", ""⟩).sClass
        then (1 : ℚ) else 0)
      liLabels arPred).sum / liLabels.length

/-- `predict_generator`: guard against zero detected feature files, run
batched inference, guard against a prediction-count mismatch, then return the
accuracy, the per-sample argmax predictions, the probability rows and the
ground-truth labels. -/
def predict_generator [LinearOrder α] (gen : FeaturesGenerator)
    (keModel : GenModel α) (oClasses : VideoClasses) :
    Except String (ℚ × List Nat × List (List α) × List String) :=
  if gen.nSamples = 0 then
    Except.error "No feature files detected, prediction stopped"
  else
    let arProba := keModel.runGen gen
    if arProba.length ≠ gen.nSamples then
      Except.error "Unexpected number of predictions"
    else
      let arPred := arProba.map argmaxList
      let liLabels := gen.sampleLabels
      let fAcc := accuracyScore oClasses liLabels arPred
      Except.ok (fAcc, arPred, arProba, liLabels)

/-- Elementwise matrix sum, `a + b` on two numpy arrays of equal shape. -/
def matAdd (a b : List (List ℝ)) : List (List ℝ) :=
  List.zipWith (List.zipWith (· + ·)) a b

/-- One row of `np.exp(ar) / np.sum(np.exp(ar), axis=1).reshape(-1,1)`:
each entry exponentiated and divided by the row-wise sum of exponentials. -/
noncomputable def softmaxRow (row : List ℝ) : List ℝ :=
  row.map (fun x => Real.exp x / (row.map Real.exp).sum)

/-- Lines 141-144 (and their two repetitions) of `main`: given the summed
score array `arSoftmax`, renormalize with softmax, take row-wise argmax, and
score the predictions against the ground-truth labels. -/
noncomputable def fuse (oClasses : VideoClasses) (liLabels : List String)
    (arSoftmax : List (List ℝ)) : List (List ℝ) × List Nat × ℚ :=
  let arProba := arSoftmax.map softmaxRow
  let arPred := arProba.map argmaxList
  let fAcc := accuracyScore oClasses liLabels arPred
  (arProba, arPred, fAcc)

/-- The post-inference part of `main` (lines 136-159): check that the
image-stream and flow-stream label lists match, then compute the three
ensembles (image-last + flow-last; flow-best + flow-last; all four models),
each fused with softmax and scored against `liLabels_image_best`. -/
noncomputable def mainCombine (oClasses : VideoClasses)
    (arProba_image_best arProba_image_last arProba_oflow_best
      arProba_oflow_last : List (List ℝ))
    (liLabels_image_best liLabels_oflow_best : List String) :
    Except String ((List (List ℝ) × List Nat × ℚ) ×
      (List (List ℝ) × List Nat × ℚ) × (List (List ℝ) × List Nat × ℚ)) :=
  if liLabels_image_best ≠ liLabels_oflow_best then
    Except.error "The rgb and flwo labels do not match"
  else
    Except.ok
      (fuse oClasses liLabels_image_best
          (matAdd arProba_image_last arProba_oflow_last),
        fuse oClasses liLabels_image_best
          (matAdd arProba_oflow_best arProba_oflow_last),
        fuse oClasses liLabels_image_best
          (matAdd (matAdd (matAdd arProba_image_best arProba_image_last)
            arProba_oflow_best) arProba_oflow_last))

/-- Spec-side accuracy, written from the spec's words: the mean over samples
of the indicator that the predicted class's short code equals the sample's
ground-truth label (`accuracy = mean(combined_prediction == ground_truth)`). -/
def spec_accuracy (oClasses : VideoClasses) (groundTruth : List String)
    (preds : List Nat) : ℚ :=
  ((List.range groundTruth.length).map fun i =>
      if (oClasses.dfClass.getD (preds.getD i 0) ⟨"", ""⟩).sClass =
          groundTruth.getD i "" then (1 : ℚ) else 0).sum
    / groundTruth.length

section Lemmas

variable {α : Type u} {β : Type v}

theorem argmaxList_lt_length [LinearOrder α] (l : List α) (h : l ≠ []) :
    argmaxList l < l.length := by
  induction l with
  | nil => exact absurd rfl h
  | cons x xs ih =>
    by_cases hc : x < xs.getD (argmaxList xs) x
    · have hxs : xs ≠ [] := by
        rintro rfl
        simp [argmaxList] at hc
      simp only [argmaxList, if_pos hc, List.length_cons]
      exact Nat.succ_lt_succ (ih hxs)
    · simp only [argmaxList, List.length_cons]
      rw [if_neg hc]
      exact Nat.succ_pos _

theorem getD_le_getD_argmaxList [LinearOrder α] (l : List α) (d : α) (j : Nat)
    (hj : j < l.length) : l.getD j d ≤ l.getD (argmaxList l) d := by
  induction l generalizing j with
  | nil => simp at hj
  | cons x xs ih =>
    by_cases hc : x < xs.getD (argmaxList xs) x
    · have hxs : xs ≠ [] := by
        rintro rfl
        simp [argmaxList] at hc
      have hr : argmaxList xs < xs.length := argmaxList_lt_length xs hxs
      have hdd : xs.getD (argmaxList xs) x = xs.getD (argmaxList xs) d := by
        rw [List.getD_eq_getElem xs x hr, List.getD_eq_getElem xs d hr]
      simp only [argmaxList, if_pos hc, List.getD_cons_succ]
      cases j with
      | zero =>
        rw [List.getD_cons_zero, ← hdd]
        exact hc.le
      | succ k =>
        rw [List.getD_cons_succ]
        exact ih k (by simpa using hj)
    · simp only [argmaxList, if_neg hc, List.getD_cons_zero]
      cases j with
      | zero => rw [List.getD_cons_zero]
      | succ k =>
        have hk : k < xs.length := by simpa using hj
        have hxs : xs ≠ [] := by rintro rfl; simp at hk
        have hr : argmaxList xs < xs.length := argmaxList_lt_length xs hxs
        have hdd : xs.getD (argmaxList xs) x = xs.getD (argmaxList xs) d := by
          rw [List.getD_eq_getElem xs x hr, List.getD_eq_getElem xs d hr]
        have h1 : xs.getD k d ≤ xs.getD (argmaxList xs) d := ih k hk
        have h2 : xs.getD (argmaxList xs) x ≤ x := not_lt.mp hc
        rw [List.getD_cons_succ]
        exact h1.trans (hdd ▸ h2)

theorem argmaxList_map [LinearOrder α] [LinearOrder β] (f : α → β)
    (hf : ∀ a b : α, f a < f b ↔ a < b) (l : List α) :
    argmaxList (l.map f) = argmaxList l := by
  induction l with
  | nil => rfl
  | cons x xs ih =>
    rcases eq_or_ne xs [] with rfl | hxs
    · simp [argmaxList]
    · have hr : argmaxList xs < xs.length := argmaxList_lt_length xs hxs
      have hmap : (xs.map f).getD (argmaxList xs) (f x) =
          f (xs.getD (argmaxList xs) x) := by
        rw [List.getD_eq_getElem _ (f x) (by simpa using hr),
          List.getD_eq_getElem xs x hr]
        simp
      simp only [List.map_cons, argmaxList, ih, hmap, hf]

theorem length_argsort [LinearOrder α] [Inhabited α] (l : List α) :
    (argsort l).length = l.length := by
  simp [argsort, List.length_insertionSort, List.length_range]

theorem mem_argsort [LinearOrder α] [Inhabited α] (l : List α) (i : Nat) :
    i ∈ argsort l ↔ i < l.length := by
  simp [argsort, List.mem_insertionSort, List.mem_range]

theorem sorted_argsort [LinearOrder α] [Inhabited α] (l : List α) :
    (argsort l).Sorted (fun i j => l.getD i default ≤ l.getD j default) := by
  haveI : IsTotal Nat (fun i j => l.getD i default ≤ l.getD j default) :=
    ⟨fun a b => le_total _ _⟩
  haveI : IsTrans Nat (fun i j => l.getD i default ≤ l.getD j default) :=
    ⟨fun a b c hab hbc => le_trans hab hbc⟩
  exact List.sorted_insertionSort _ _

theorem sorted_rel_getLast {r : α → α → Prop} (hrefl : ∀ a, r a a)
    {l : List α} (hs : l.Sorted r) (h : l ≠ []) (x : α) (hx : x ∈ l) :
    r x (l.getLast h) := by
  induction l with
  | nil => exact absurd rfl h
  | cons a xs ih =>
    rcases eq_or_ne xs [] with rfl | hxs
    · simp only [List.mem_singleton] at hx
      subst hx
      exact hrefl _
    · rw [List.getLast_cons hxs]
      rcases List.mem_cons.mp hx with rfl | hmem
      · exact (List.sorted_cons.mp hs).1 _ (List.getLast_mem hxs)
      · exact ih hs.of_cons hxs hmem

theorem getLast?_drop_eq (l : List α) (n : Nat) (h : n < l.length) :
    (l.drop n).getLast? = l.getLast? := by
  induction l generalizing n with
  | nil => simp at h
  | cons x xs ih =>
    cases n with
    | zero => simp
    | succ m =>
      rw [List.drop_succ_cons, ih m (by simpa using h)]
      rcases xs with - | ⟨y, ys⟩
      · simp at h
      · simp [List.getLast?_cons_cons]

theorem arTopLabels_head [LinearOrder α] [Inhabited α] (l : List α) (nTop : Nat)
    (h1 : 1 ≤ nTop) (hne : argsort l ≠ []) :
    (arTopLabels l nTop).getD 0 0 = (argsort l).getLast hne := by
  have hlen : 0 < (argsort l).length := List.length_pos.mpr hne
  have hdrop : (argsort l).length - nTop < (argsort l).length := by omega
  rw [arTopLabels, List.getD_eq_getElem?_getD, ← List.head?_eq_getElem?,
    List.head?_reverse, lastSlice, if_neg (by omega), getLast?_drop_eq _ _ hdrop,
    List.getLast?_eq_getLast _ hne]
  rfl

theorem length_arTopLabels [LinearOrder α] [Inhabited α] (l : List α)
    (nTop : Nat) (h1 : 1 ≤ nTop) (h2 : nTop ≤ l.length) :
    (arTopLabels l nTop).length = nTop := by
  have := length_argsort l
  rw [arTopLabels, List.length_reverse, lastSlice, if_neg (by omega),
    List.length_drop]
  omega

theorem mem_arTopLabels [LinearOrder α] [Inhabited α] (l : List α) (nTop : Nat)
    (i : Nat) (hi : i ∈ arTopLabels l nTop) : i < l.length := by
  rw [arTopLabels, List.mem_reverse] at hi
  have : i ∈ argsort l := by
    unfold lastSlice at hi
    split at hi
    · exact hi
    · exact List.drop_subset _ _ hi
  exact (mem_argsort l i).mp this

theorem arTopLabels_ne_nil [LinearOrder α] [Inhabited α] (l : List α)
    (nTop : Nat) (h1 : 1 ≤ nTop) (hl : l ≠ []) : arTopLabels l nTop ≠ [] := by
  have hlen : 0 < l.length := List.length_pos.mpr hl
  have hs := length_argsort l
  rw [arTopLabels, ← List.length_pos, List.length_reverse, lastSlice,
    if_neg (by omega), List.length_drop]
  omega

theorem exp_sum_pos (row : List ℝ) (h : row ≠ []) :
    0 < (row.map Real.exp).sum := by
  refine List.sum_pos _ (fun x hx => ?_) (by simpa using h)
  rcases List.mem_map.mp hx with ⟨a, -, rfl⟩
  exact Real.exp_pos a

theorem sum_softmaxRow (row : List ℝ) (h : row ≠ []) :
    (softmaxRow row).sum = 1 := by
  have hS : 0 < (row.map Real.exp).sum := exp_sum_pos row h
  have hrw : (row.map fun x => Real.exp x / (row.map Real.exp).sum) =
      row.map fun x => Real.exp x * ((row.map Real.exp).sum)⁻¹ := by
    simp [div_eq_mul_inv]
  rw [softmaxRow, hrw, List.sum_map_mul_right, mul_inv_cancel₀ (ne_of_gt hS)]

theorem argmaxList_softmaxRow (row : List ℝ) :
    argmaxList (softmaxRow row) = argmaxList row := by
  rcases eq_or_ne row [] with rfl | h
  · rfl
  · have hS : 0 < (row.map Real.exp).sum := exp_sum_pos row h
    rw [softmaxRow]
    exact argmaxList_map _
      (fun a b => by rw [div_lt_div_iff_of_pos_right hS, Real.exp_lt_exp]) row

theorem zipWith_sum_eq_range_sum (f : String → Nat → ℚ) :
    ∀ (labels : List String) (preds : List Nat),
      preds.length = labels.length →
      (List.zipWith f labels preds).sum =
        ((List.range labels.length).map
          (fun i => f (labels.getD i "") (preds.getD i 0))).sum
  | [], [], _ => by simp
  | [], _ :: _, h => by simp at h
  | _ :: _, [], h => by simp at h
  | a :: ls, p :: ps, h => by
    have hlen : ps.length = ls.length := by simpa using h
    rw [List.zipWith_cons_cons, List.sum_cons, List.length_cons,
      List.range_succ_eq_map, List.map_cons, List.sum_cons, List.map_map,
      zipWith_sum_eq_range_sum f ls ps hlen]
    rfl

theorem accuracyScore_eq_spec_accuracy (oClasses : VideoClasses)
    (liLabels : List String) (arPred : List Nat)
    (h : arPred.length = liLabels.length) :
    accuracyScore oClasses liLabels arPred =
      spec_accuracy oClasses liLabels arPred := by
  rw [accuracyScore, spec_accuracy,
    zipWith_sum_eq_range_sum _ liLabels arPred h]
  congr 1
  refine congrArg List.sum (List.map_congr_left fun i hi => ?_)
  by_cases hcase : liLabels.getD i "" =
      (oClasses.dfClass.getD (arPred.getD i 0) ⟨"", ""⟩).sClass
  · rw [if_pos hcase, if_pos hcase.symm]
  · rw [if_neg hcase, if_neg (fun hs => hcase hs.symm)]

theorem loopErr_eq_none (oClasses : VideoClasses) (topLabels : List Nat)
    (i : Nat) (hi : i < topLabels.length)
    (hk : topLabels.getD i 0 < oClasses.dfClass.length) :
    loopErr oClasses topLabels i = none := by
  rw [loopErr, if_pos hi, if_pos hk]

theorem loopErr_classify (oClasses : VideoClasses) (topLabels : List Nat)
    (i : Nat) (e : String) (h : loopErr oClasses topLabels i = some e) :
    e = "IndexError" ∨ e = "KeyError" := by
  rw [loopErr] at h
  split at h
  · split at h
    · exact absurd h (by simp)
    · exact Or.inr (Option.some_inj.mp h).symm
  · exact Or.inl (Option.some_inj.mp h).symm

theorem predict_ok_of_inbounds [LinearOrder α] [Inhabited α]
    (keModel : KerasModel α) (arFeatures : NpArray α) (oClasses : VideoClasses)
    (nTop : Nat) (hsh : keModel.inputShapeTail = arFeatures.shape)
    (h1 : 1 ≤ nTop) (h2 : nTop ≤ (keModel.run arFeatures).length)
    (h3 : (keModel.run arFeatures).length ≤ oClasses.dfClass.length) :
    predict keModel arFeatures oClasses nTop = Except.ok
      ((arTopLabels (keModel.run arFeatures) nTop).getD 0 0,
        classText oClasses
          ((arTopLabels (keModel.run arFeatures) nTop).getD 0 0),
        ((arTopLabels (keModel.run arFeatures) nTop).map
          (fun i => (keModel.run arFeatures).getD i default)).getD 0
          default) := by
  have hlen : (arTopLabels (keModel.run arFeatures) nTop).length = nTop :=
    length_arTopLabels _ nTop h1 h2
  have hok : ∀ i < nTop,
      loopErr oClasses (arTopLabels (keModel.run arFeatures) nTop) i = none := by
    intro i hi
    have hi' : i < (arTopLabels (keModel.run arFeatures) nTop).length := by
      omega
    have hmem : (arTopLabels (keModel.run arFeatures) nTop).getD i 0 ∈
        arTopLabels (keModel.run arFeatures) nTop := by
      rw [List.getD_eq_getElem _ _ hi']
      exact List.getElem_mem hi'
    have hklt := mem_arTopLabels (keModel.run arFeatures) nTop _ hmem
    exact loopErr_eq_none _ _ _ hi' (lt_of_lt_of_le hklt h3)
  have hfind : (List.range nTop).findSome?
      (loopErr oClasses (arTopLabels (keModel.run arFeatures) nTop)) = none :=
    List.findSome?_eq_none_iff.mpr fun i hi => hok i (List.mem_range.mp hi)
  have h0 : loopErr oClasses (arTopLabels (keModel.run arFeatures) nTop) 0 =
      none := hok 0 h1
  simp only [predict]
  rw [if_neg (fun hcon => hcon hsh), hfind, h0]

theorem predict_error_after_guard [LinearOrder α] [Inhabited α]
    (keModel : KerasModel α) (arFeatures : NpArray α) (oClasses : VideoClasses)
    (nTop : Nat) (hsh : keModel.inputShapeTail = arFeatures.shape) (e : String)
    (he : predict keModel arFeatures oClasses nTop = Except.error e) :
    e = "IndexError" ∨ e = "KeyError" := by
  simp only [predict] at he
  rw [if_neg (fun hcon => hcon hsh)] at he
  cases hfind : (List.range nTop).findSome?
      (loopErr oClasses (arTopLabels (keModel.run arFeatures) nTop)) with
  | some e' =>
    rw [hfind] at he
    rcases List.exists_of_findSome?_eq_some hfind with ⟨i, hi, hLE⟩
    have : e' = e := by simpa using he
    exact this ▸ loopErr_classify _ _ i e' hLE
  | none =>
    rw [hfind] at he
    cases h0 : loopErr oClasses (arTopLabels (keModel.run arFeatures) nTop) 0
      with
    | some e' =>
      rw [h0] at he
      have : e' = e := by simpa using he
      exact this ▸ loopErr_classify _ _ 0 e' h0
    | none =>
      rw [h0] at he
      exact absurd he (by simp)

end Lemmas

/-- C2: every row of the fused probability array produced by the softmax
renormalization in `main` (exponentials of the summed scores divided by the
row-wise sum of exponentials) sums to 1, for any finite real score matrix
with nonempty rows. -/
theorem claim_C2_softmax_rows_sum_one (oClasses : VideoClasses)
    (liLabels : List String) (arSoftmax : List (List ℝ))
    (hrows : ∀ r ∈ arSoftmax, r ≠ []) :
    ∀ p ∈ (fuse oClasses liLabels arSoftmax).1, p.sum = 1 := by
  intro p hp
  rcases List.mem_map.mp (by simpa [fuse] using hp) with ⟨r, hr, rfl⟩
  exact sum_softmaxRow r (hrows r hr)

/-- Witness for C2 at the one-row score matrix `[[0, 0]]`. -/
theorem claim_C2_witness :
    (∀ r ∈ [[(0 : ℝ), 0]], r ≠ []) ∧ (softmaxRow [(0 : ℝ), 0]).sum = 1 := by
  refine ⟨by simp, claim_C2_softmax_rows_sum_one ⟨[]⟩ [] [[(0 : ℝ), 0]]
    (by simp) _ ?_⟩
  simp [fuse]

/-- Counterexample to C3 as stated: with equal shapes (no shape mismatch),
`predict` still raises — the default `nTop = 3` on a 2-class output indexes
`arTopLabels[2]` past the end of the 2-entry top-label array in the print
loop, so "raises an error iff the shapes differ" is false. -/
theorem claim_C3_counterexample :
    KerasModel.inputShapeTail (⟨[1], fun _ => [(1 : ℚ), 2]⟩ : KerasModel ℚ) =
      NpArray.shape (⟨[1], [5]⟩ : NpArray ℚ) ∧
    predict (⟨[1], fun _ => [(1 : ℚ), 2]⟩ : KerasModel ℚ) ⟨[1], [5]⟩
      ⟨[⟨"a", "x"⟩, ⟨"b", "y"⟩]⟩ 3 = Except.error "IndexError" := by
  exact ⟨rfl, rfl⟩

/-- C3 (amended): `predict` raises the shape error if and only if the model's
expected input shape (its `input_shape` without the batch dimension) differs
from the shape of the supplied feature array; on a mismatch the result is the
shape error whatever the network would compute, so the check precedes any
inference; when the shapes are equal no shape error is raised and inference
proceeds, though the print loop can still raise IndexError (when `nTop`
exceeds the output length) or KeyError (when the class table lacks a row). -/
theorem claim_C3_shape_guard_amended [LinearOrder α] [Inhabited α]
    (keModel : KerasModel α) (arFeatures : NpArray α) (oClasses : VideoClasses)
    (nTop : Nat) :
    ((predict keModel arFeatures oClasses nTop =
          Except.error "Incorrect shapes") ↔
        keModel.inputShapeTail ≠ arFeatures.shape) ∧
      (keModel.inputShapeTail ≠ arFeatures.shape →
        ∀ run', predict ⟨keModel.inputShapeTail, run'⟩ arFeatures oClasses
          nTop = Except.error "Incorrect shapes") ∧
      (keModel.inputShapeTail = arFeatures.shape →
        ∀ e, predict keModel arFeatures oClasses nTop = Except.error e →
          e = "IndexError" ∨ e = "KeyError") := by
  refine ⟨⟨?_, ?_⟩, ?_, ?_⟩
  · intro he
    rcases eq_or_ne keModel.inputShapeTail arFeatures.shape with heq | hne
    · rcases predict_error_after_guard keModel arFeatures oClasses nTop heq
        _ he with h | h <;> simp at h
    · exact hne
  · intro hne
    simp only [predict]
    rw [if_pos hne]
  · intro hne run'
    simp only [predict]
    rw [if_pos hne]
  · exact fun heq e he =>
      predict_error_after_guard keModel arFeatures oClasses nTop heq e he

/-- Witness for C3 (amended): a model expecting shape (2,) on features of
shape (3,). -/
theorem claim_C3_amended_witness :
    predict (⟨[2], fun _ => [(1 : ℚ), 0]⟩ : KerasModel ℚ) ⟨[3], []⟩ ⟨[]⟩ 3 =
      Except.error "Incorrect shapes" :=
  (claim_C3_shape_guard_amended (⟨[2], fun _ => [(1 : ℚ), 0]⟩ : KerasModel ℚ)
    ⟨[3], []⟩ ⟨[]⟩ 3).2.1 (by decide) (fun _ => [(1 : ℚ), 0])

/-- C4: `main` stops with an error when the image-stream and flow-stream
label lists differ, before computing any fused accuracy; a fused result is
produced only when they are equal. -/
theorem claim_C4_label_guard (oClasses : VideoClasses)
    (A B C D : List (List ℝ)) (lib lob : List String) :
    (lib ≠ lob → mainCombine oClasses A B C D lib lob =
      Except.error "The rgb and flwo labels do not match") ∧
    (∀ r, mainCombine oClasses A B C D lib lob = Except.ok r → lib = lob) := by
  constructor
  · intro hne
    simp only [mainCombine]
    rw [if_pos hne]
  · intro r hr
    by_contra hne
    simp only [mainCombine] at hr
    rw [if_pos hne] at hr
    exact absurd hr (by simp)

/-- Witness for C4: mismatched label lists make `main` fail. -/
theorem claim_C4_witness :
    mainCombine ⟨[]⟩ [] [] [] [] ["a"] ["b"] =
      Except.error "The rgb and flwo labels do not match" :=
  (claim_C4_label_guard ⟨[]⟩ [] [] [] [] ["a"] ["b"]).1 (by simp)

/-- C5: `predict_generator` raises an error when the feature generator
detects zero feature files, whatever model and class table are supplied (in
particular the result does not depend on the inference function, which is
only consulted when at least one file was detected). -/
theorem claim_C5_no_feature_files [LinearOrder α] (gen : FeaturesGenerator)
    (h : gen.nSamples = 0) :
    ∀ (keModel : GenModel α) (oClasses : VideoClasses),
      predict_generator gen keModel oClasses =
        Except.error "No feature files detected, prediction stopped" := by
  intro keModel oClasses
  simp only [predict_generator]
  rw [if_pos h]

/-- Witness for C5: the empty feature directory. -/
theorem claim_C5_witness :
    FeaturesGenerator.nSamples ⟨[]⟩ = 0 ∧
      predict_generator ⟨[]⟩ (⟨fun _ => []⟩ : GenModel ℚ) ⟨[]⟩ =
        Except.error "No feature files detected, prediction stopped" :=
  ⟨rfl, claim_C5_no_feature_files ⟨[]⟩ rfl (⟨fun _ => []⟩ : GenModel ℚ) ⟨[]⟩⟩

/-- C6: with at least one detected sample, `predict_generator` raises an
error when the predicted probability array has a number of rows different
from the number of samples; otherwise it returns predictions of length
`nSamples`, a probability array with `nSamples` rows, and a ground-truth
label list of length `nSamples`. -/
theorem claim_C6_prediction_counts [LinearOrder α] (gen : FeaturesGenerator)
    (keModel : GenModel α) (oClasses : VideoClasses) (h0 : gen.nSamples ≠ 0) :
    ((keModel.runGen gen).length ≠ gen.nSamples →
      predict_generator gen keModel oClasses =
        Except.error "Unexpected number of predictions") ∧
    ((keModel.runGen gen).length = gen.nSamples →
      predict_generator gen keModel oClasses =
        Except.ok (accuracyScore oClasses gen.sampleLabels
            ((keModel.runGen gen).map argmaxList),
          (keModel.runGen gen).map argmaxList, keModel.runGen gen,
          gen.sampleLabels) ∧
      ((keModel.runGen gen).map argmaxList).length = gen.nSamples ∧
      (keModel.runGen gen).length = gen.nSamples ∧
      gen.sampleLabels.length = gen.nSamples) := by
  constructor
  · intro hne
    simp only [predict_generator]
    rw [if_neg h0, if_pos hne]
  · intro heq
    refine ⟨?_, by simpa using heq, heq, rfl⟩
    simp only [predict_generator]
    rw [if_neg h0, if_neg (fun hcon => hcon heq)]

/-- Witness for C6: one sample, one predicted row. -/
theorem claim_C6_witness :
    FeaturesGenerator.nSamples ⟨["a"]⟩ ≠ 0 ∧
      (predict_generator ⟨["a"]⟩ (⟨fun _ => [[(1 : ℚ)]]⟩ : GenModel ℚ)
          ⟨[⟨"a", "x"⟩]⟩ =
        Except.ok (accuracyScore ⟨[⟨"a", "x"⟩]⟩
            (FeaturesGenerator.sampleLabels ⟨["a"]⟩)
            ((GenModel.runGen (⟨fun _ => [[(1 : ℚ)]]⟩ : GenModel ℚ)
              ⟨["a"]⟩).map argmaxList),
          (GenModel.runGen (⟨fun _ => [[(1 : ℚ)]]⟩ : GenModel ℚ)
            ⟨["a"]⟩).map argmaxList,
          GenModel.runGen (⟨fun _ => [[(1 : ℚ)]]⟩ : GenModel ℚ) ⟨["a"]⟩,
          FeaturesGenerator.sampleLabels ⟨["a"]⟩) ∧
      ((GenModel.runGen (⟨fun _ => [[(1 : ℚ)]]⟩ : GenModel ℚ)
          ⟨["a"]⟩).map argmaxList).length = FeaturesGenerator.nSamples ⟨["a"]⟩ ∧
      (GenModel.runGen (⟨fun _ => [[(1 : ℚ)]]⟩ : GenModel ℚ)
          ⟨["a"]⟩).length = FeaturesGenerator.nSamples ⟨["a"]⟩ ∧
      (FeaturesGenerator.sampleLabels ⟨["a"]⟩).length =
        FeaturesGenerator.nSamples ⟨["a"]⟩) :=
  ⟨by decide,
    (claim_C6_prediction_counts ⟨["a"]⟩ (⟨fun _ => [[(1 : ℚ)]]⟩ : GenModel ℚ)
      ⟨[⟨"a", "x"⟩]⟩ (by decide)).2 rfl⟩

/-- C7: the per-model prediction step and the ensemble fusion are
deterministic — on equal generators, models, class tables, score arrays and
label lists, `predict_generator` and the fused computation of `main` return
identical results (so in particular identical prediction vectors and
accuracy values). -/
theorem claim_C7_deterministic (gen gen' : FeaturesGenerator)
    (m m' : GenModel ℝ) (o o' : VideoClasses)
    (A B C D A' B' C' D' : List (List ℝ)) (lib lob lib' lob' : List String)
    (h1 : gen = gen') (h2 : m = m') (h3 : o = o') (h4 : A = A') (h5 : B = B')
    (h6 : C = C') (h7 : D = D') (h8 : lib = lib') (h9 : lob = lob') :
    predict_generator gen m o = predict_generator gen' m' o' ∧
      mainCombine o A B C D lib lob =
        mainCombine o' A' B' C' D' lib' lob' := by
  subst h1 h2 h3 h4 h5 h6 h7 h8 h9
  exact ⟨rfl, rfl⟩

/-- Witness for C7 at a concrete one-sample run. -/
theorem claim_C7_witness :
    predict_generator ⟨["a"]⟩ (⟨fun _ => [[(1 : ℝ)]]⟩ : GenModel ℝ)
        ⟨[⟨"a", "x"⟩]⟩ =
      predict_generator ⟨["a"]⟩ (⟨fun _ => [[(1 : ℝ)]]⟩ : GenModel ℝ)
        ⟨[⟨"a", "x"⟩]⟩ ∧
    mainCombine ⟨[⟨"a", "x"⟩]⟩ [[(1 : ℝ)]] [[(1 : ℝ)]] [[(1 : ℝ)]]
        [[(1 : ℝ)]] ["a"] ["a"] =
      mainCombine ⟨[⟨"a", "x"⟩]⟩ [[(1 : ℝ)]] [[(1 : ℝ)]] [[(1 : ℝ)]]
        [[(1 : ℝ)]] ["a"] ["a"] :=
  claim_C7_deterministic _ _ _ _ _ _ _ _ _ _ _ _ _ _ _ _ _ _
    rfl rfl rfl rfl rfl rfl rfl rfl rfl

/-- C8: softmax does not change the argmax — `argmax (softmax x) = argmax x`
for every real score vector — so the fused predictions and accuracy in `main`
depend only on the summed score array, not on the softmax renormalization. -/
theorem claim_C8_softmax_argmax_invariant :
    (∀ x : List ℝ, argmaxList (softmaxRow x) = argmaxList x) ∧
    ∀ (oClasses : VideoClasses) (liLabels : List String)
      (arSoftmax : List (List ℝ)),
      (fuse oClasses liLabels arSoftmax).2.1 = arSoftmax.map argmaxList ∧
      (fuse oClasses liLabels arSoftmax).2.2 =
        accuracyScore oClasses liLabels (arSoftmax.map argmaxList) := by
  refine ⟨argmaxList_softmaxRow, fun o l s => ?_⟩
  have hpred : (s.map softmaxRow).map argmaxList = s.map argmaxList := by
    rw [List.map_map]
    exact List.map_congr_left fun r _ => argmaxList_softmaxRow r
  constructor
  · simp only [fuse]
    exact hpred
  · simp only [fuse]
    rw [hpred]

/-- Counterexample to C9 as stated: for `nTop ≥ 1` and a nonempty output
probability vector `predict` need not return a 3-tuple at all — the source's
default `nTop = 3` on a 2-class output raises IndexError in the print loop,
and `nTop = 2` with a class table missing the top label's row raises
KeyError, so no returned first/third component exists there. -/
theorem claim_C9_counterexample :
    predict (⟨[1], fun _ => [(1 : ℚ), 2]⟩ : KerasModel ℚ) ⟨[1], [5]⟩
      ⟨[⟨"a", "x"⟩, ⟨"b", "y"⟩]⟩ 3 = Except.error "IndexError" ∧
    predict (⟨[1], fun _ => [(1 : ℚ), 2]⟩ : KerasModel ℚ) ⟨[1], [5]⟩
      ⟨[⟨"a", "x"⟩]⟩ 2 = Except.error "KeyError" := by
  exact ⟨rfl, rfl⟩

/-- C9 (amended): when the shape guard passes, `1 ≤ nTop ≤` the length of the
model's output probability vector, and the class table has a row for every
class index, the first component of `predict`'s returned 3-tuple is the index
of a maximal entry of the output probability vector, and the third component
is the value of that maximal probability. -/
theorem claim_C9_predict_top1_amended [LinearOrder α] [Inhabited α]
    (keModel : KerasModel α) (arFeatures : NpArray α) (oClasses : VideoClasses)
    (nTop : Nat) (hsh : keModel.inputShapeTail = arFeatures.shape)
    (hTop : 1 ≤ nTop) (hTopLe : nTop ≤ (keModel.run arFeatures).length)
    (hTable : (keModel.run arFeatures).length ≤ oClasses.dfClass.length) :
    ∃ n s p, predict keModel arFeatures oClasses nTop = Except.ok (n, s, p) ∧
      n < (keModel.run arFeatures).length ∧
      (∀ j < (keModel.run arFeatures).length,
        (keModel.run arFeatures).getD j default ≤
          (keModel.run arFeatures).getD n default) ∧
      p = (keModel.run arFeatures).getD n default := by
  have hne : keModel.run arFeatures ≠ [] := by
    rw [← List.length_pos]
    omega
  have hasne : argsort (keModel.run arFeatures) ≠ [] := by
    rw [← List.length_pos, length_argsort]
    exact List.length_pos.mpr hne
  have hhead : (arTopLabels (keModel.run arFeatures) nTop).getD 0 0 =
      (argsort (keModel.run arFeatures)).getLast hasne :=
    arTopLabels_head _ nTop hTop hasne
  have hnmem : (arTopLabels (keModel.run arFeatures) nTop).getD 0 0 ∈
      argsort (keModel.run arFeatures) := by
    rw [hhead]
    exact List.getLast_mem hasne
  have hnlt : (arTopLabels (keModel.run arFeatures) nTop).getD 0 0 <
      (keModel.run arFeatures).length := (mem_argsort _ _).mp hnmem
  have hmax : ∀ j < (keModel.run arFeatures).length,
      (keModel.run arFeatures).getD j default ≤
        (keModel.run arFeatures).getD
          ((arTopLabels (keModel.run arFeatures) nTop).getD 0 0) default := by
    intro j hj
    rw [hhead]
    exact sorted_rel_getLast
      (r := fun i j => (keModel.run arFeatures).getD i default ≤
        (keModel.run arFeatures).getD j default)
      (fun a => le_refl _) (sorted_argsort _) hasne j
      ((mem_argsort _ j).mpr hj)
  have htl0 : 0 < (arTopLabels (keModel.run arFeatures) nTop).length :=
    List.length_pos.mpr (arTopLabels_ne_nil _ nTop hTop hne)
  have h3 : ((arTopLabels (keModel.run arFeatures) nTop).map
      (fun i => (keModel.run arFeatures).getD i default)).getD 0 default =
      (keModel.run arFeatures).getD
        ((arTopLabels (keModel.run arFeatures) nTop).getD 0 0) default := by
    rw [List.getD_eq_getElem _ _ (by simpa using htl0), List.getElem_map]
    congr 1
    rw [List.getD_eq_getElem _ _ htl0]
  refine ⟨(arTopLabels (keModel.run arFeatures) nTop).getD 0 0,
    classText oClasses ((arTopLabels (keModel.run arFeatures) nTop).getD 0 0),
    ((arTopLabels (keModel.run arFeatures) nTop).map
      (fun i => (keModel.run arFeatures).getD i default)).getD 0 default,
    predict_ok_of_inbounds keModel arFeatures oClasses nTop hsh hTop hTopLe
      hTable, hnlt, hmax, h3⟩

/-- Witness for C9 (amended): a two-class model on a matching one-feature
array, nTop = 2, two class-table rows. -/
theorem claim_C9_amended_witness :
    ∃ n s p, predict (⟨[1], fun _ => [(1 : ℚ), 2]⟩ : KerasModel ℚ)
        ⟨[1], [5]⟩ ⟨[⟨"a", "x"⟩, ⟨"b", "y"⟩]⟩ 2 = Except.ok (n, s, p) ∧
      n < (KerasModel.run (⟨[1], fun _ => [(1 : ℚ), 2]⟩ : KerasModel ℚ)
          ⟨[1], [5]⟩).length ∧
      (∀ j < (KerasModel.run (⟨[1], fun _ => [(1 : ℚ), 2]⟩ : KerasModel ℚ)
          ⟨[1], [5]⟩).length,
        (KerasModel.run (⟨[1], fun _ => [(1 : ℚ), 2]⟩ : KerasModel ℚ)
            ⟨[1], [5]⟩).getD j default ≤
          (KerasModel.run (⟨[1], fun _ => [(1 : ℚ), 2]⟩ : KerasModel ℚ)
            ⟨[1], [5]⟩).getD n default) ∧
      p = (KerasModel.run (⟨[1], fun _ => [(1 : ℚ), 2]⟩ : KerasModel ℚ)
        ⟨[1], [5]⟩).getD n default :=
  claim_C9_predict_top1_amended (⟨[1], fun _ => [(1 : ℚ), 2]⟩ : KerasModel ℚ)
    ⟨[1], [5]⟩ ⟨[⟨"a", "x"⟩, ⟨"b", "y"⟩]⟩ 2 rfl (by decide) (by decide)
    (by decide)

/-- C10: after the shape guard passes, with `1 ≤ nTop ≤` the length of the
model's output vector and a class-table row for every class index, all
indexing in `predict` is in bounds: the top-label list has exactly `nTop`
entries (so the printing loop stays in bounds) and each of its entries is a
valid index into both the probability vector and the class table; under
these hypotheses `predict` returns a result. -/
theorem claim_C10_predict_inbounds [LinearOrder α] [Inhabited α]
    (keModel : KerasModel α) (arFeatures : NpArray α) (oClasses : VideoClasses)
    (nTop : Nat) (hsh : keModel.inputShapeTail = arFeatures.shape)
    (h1 : 1 ≤ nTop) (h2 : nTop ≤ (keModel.run arFeatures).length)
    (h3 : (keModel.run arFeatures).length ≤ oClasses.dfClass.length) :
    (∃ r, predict keModel arFeatures oClasses nTop = Except.ok r) ∧
    (arTopLabels (keModel.run arFeatures) nTop).length = nTop ∧
    ∀ i ∈ arTopLabels (keModel.run arFeatures) nTop,
      i < (keModel.run arFeatures).length ∧ i < oClasses.dfClass.length := by
  refine ⟨⟨_, predict_ok_of_inbounds keModel arFeatures oClasses nTop hsh h1
    h2 h3⟩, length_arTopLabels _ nTop h1 h2, fun i hi => ?_⟩
  have hlt := mem_arTopLabels _ nTop i hi
  exact ⟨hlt, lt_of_lt_of_le hlt h3⟩

/-- Witness for C10: a two-class model, nTop = 2, two class-table rows. -/
theorem claim_C10_witness :
    (∃ r, predict (⟨[1], fun _ => [(1 : ℚ), 2]⟩ : KerasModel ℚ)
        ⟨[1], [5]⟩ ⟨[⟨"a", "x"⟩, ⟨"b", "y"⟩]⟩ 2 = Except.ok r) ∧
    (arTopLabels (KerasModel.run (⟨[1], fun _ => [(1 : ℚ), 2]⟩ : KerasModel ℚ)
        ⟨[1], [5]⟩) 2).length = 2 ∧
    ∀ i ∈ arTopLabels (KerasModel.run
        (⟨[1], fun _ => [(1 : ℚ), 2]⟩ : KerasModel ℚ) ⟨[1], [5]⟩) 2,
      i < (KerasModel.run (⟨[1], fun _ => [(1 : ℚ), 2]⟩ : KerasModel ℚ)
          ⟨[1], [5]⟩).length ∧
      i < (VideoClasses.dfClass ⟨[⟨"a", "x"⟩, ⟨"b", "y"⟩]⟩).length :=
  claim_C10_predict_inbounds (⟨[1], fun _ => [(1 : ℚ), 2]⟩ : KerasModel ℚ)
    ⟨[1], [5]⟩ ⟨[⟨"a", "x"⟩, ⟨"b", "y"⟩]⟩ 2 rfl (by decide) (by decide)
    (by decide)

/-- C1: for each of the three ensembles computed in `main`, the combined
score array is the elementwise sum of the selected models' output arrays,
the combined probability is the softmax of that sum, the combined prediction
for each sample is the argmax of the combined probability row, and the
reported combined accuracy is the mean over samples of the indicator that
the predicted class's short code equals the sample's ground-truth label. -/
theorem claim_C1_main_ensembles (oClasses : VideoClasses)
    (A B C D : List (List ℝ)) (lib lob : List String) (hlab : lib = lob) :
    mainCombine oClasses A B C D lib lob = Except.ok
      (fuse oClasses lib (matAdd B D), fuse oClasses lib (matAdd C D),
        fuse oClasses lib (matAdd (matAdd (matAdd A B) C) D)) ∧
    (∀ (a b : List (List ℝ)) (i j : Nat), i < a.length → i < b.length →
      j < (a.getD i []).length → j < (b.getD i []).length →
      ((matAdd a b).getD i []).getD j 0 =
        (a.getD i []).getD j 0 + (b.getD i []).getD j 0) ∧
    (∀ (labels : List String) (scores : List (List ℝ)),
      (fuse oClasses labels scores).1 = scores.map softmaxRow) ∧
    (∀ (row : List ℝ) (j : Nat), j < row.length →
      (softmaxRow row).getD j 0 =
        Real.exp (row.getD j 0) / (row.map Real.exp).sum) ∧
    (∀ (labels : List String) (scores : List (List ℝ)),
      (fuse oClasses labels scores).2.1 =
        (scores.map softmaxRow).map argmaxList) ∧
    (∀ p : List ℝ, p ≠ [] → argmaxList p < p.length ∧
      ∀ j < p.length, p.getD j 0 ≤ p.getD (argmaxList p) 0) ∧
    (∀ (labels : List String) (scores : List (List ℝ)),
      scores.length = labels.length →
      (fuse oClasses labels scores).2.2 =
        spec_accuracy oClasses labels (fuse oClasses labels scores).2.1) := by
  refine ⟨?_, ?_, fun _ _ => rfl, ?_, fun _ _ => rfl, ?_, ?_⟩
  · simp only [mainCombine]
    rw [if_neg (fun hcon => hcon hlab)]
  · intro a b i j hia hib hja hjb
    rw [List.getD_eq_getElem a _ hia] at hja
    rw [List.getD_eq_getElem b _ hib] at hjb
    have hlen : i < (List.zipWith (List.zipWith (· + ·)) a b).length := by
      rw [List.length_zipWith]
      omega
    have hlen2 : j < (List.zipWith (· + ·) a[i] b[i]).length := by
      rw [List.length_zipWith]
      omega
    rw [matAdd, List.getD_eq_getElem _ _ hlen, List.getElem_zipWith,
      List.getD_eq_getElem _ _ hlen2, List.getElem_zipWith,
      List.getD_eq_getElem a _ hia, List.getD_eq_getElem b _ hib,
      List.getD_eq_getElem _ _ hja, List.getD_eq_getElem _ _ hjb]
  · intro row j hj
    rw [softmaxRow, List.getD_eq_getElem _ _ (by simpa using hj),
      List.getElem_map, List.getD_eq_getElem _ _ hj]
  · intro p hp
    exact ⟨argmaxList_lt_length p hp,
      fun j hj => getD_le_getD_argmaxList p 0 j hj⟩
  · intro labels scores hlen
    have hpl : ((scores.map softmaxRow).map argmaxList).length =
        labels.length := by simpa using hlen
    calc (fuse oClasses labels scores).2.2
        = accuracyScore oClasses labels
            ((scores.map softmaxRow).map argmaxList) := rfl
      _ = spec_accuracy oClasses labels
            ((scores.map softmaxRow).map argmaxList) :=
          accuracyScore_eq_spec_accuracy _ _ _ hpl
      _ = spec_accuracy oClasses labels (fuse oClasses labels scores).2.1 :=
          rfl

/-- Witness for C1 at a one-class, one-sample run with matching labels. -/
theorem claim_C1_witness :
    mainCombine ⟨[⟨"a", "x"⟩]⟩ [[(0 : ℝ)]] [[(0 : ℝ)]] [[(0 : ℝ)]]
        [[(0 : ℝ)]] ["a"] ["a"] = Except.ok
      (fuse ⟨[⟨"a", "x"⟩]⟩ ["a"] (matAdd [[(0 : ℝ)]] [[(0 : ℝ)]]),
        fuse ⟨[⟨"a", "x"⟩]⟩ ["a"] (matAdd [[(0 : ℝ)]] [[(0 : ℝ)]]),
        fuse ⟨[⟨"a", "x"⟩]⟩ ["a"]
          (matAdd (matAdd (matAdd [[(0 : ℝ)]] [[(0 : ℝ)]]) [[(0 : ℝ)]])
            [[(0 : ℝ)]])) ∧
    (∀ (a b : List (List ℝ)) (i j : Nat), i < a.length → i < b.length →
      j < (a.getD i []).length → j < (b.getD i []).length →
      ((matAdd a b).getD i []).getD j 0 =
        (a.getD i []).getD j 0 + (b.getD i []).getD j 0) ∧
    (∀ (labels : List String) (scores : List (List ℝ)),
      (fuse ⟨[⟨"a", "x"⟩]⟩ labels scores).1 = scores.map softmaxRow) ∧
    (∀ (row : List ℝ) (j : Nat), j < row.length →
      (softmaxRow row).getD j 0 =
        Real.exp (row.getD j 0) / (row.map Real.exp).sum) ∧
    (∀ (labels : List String) (scores : List (List ℝ)),
      (fuse ⟨[⟨"a", "x"⟩]⟩ labels scores).2.1 =
        (scores.map softmaxRow).map argmaxList) ∧
    (∀ p : List ℝ, p ≠ [] → argmaxList p < p.length ∧
      ∀ j < p.length, p.getD j 0 ≤ p.getD (argmaxList p) 0) ∧
    (∀ (labels : List String) (scores : List (List ℝ)),
      scores.length = labels.length →
      (fuse ⟨[⟨"a", "x"⟩]⟩ labels scores).2.2 =
        spec_accuracy ⟨[⟨"a", "x"⟩]⟩ labels
          (fuse ⟨[⟨"a", "x"⟩]⟩ labels scores).2.1) :=
  claim_C1_main_ensembles ⟨[⟨"a", "x"⟩]⟩ [[(0 : ℝ)]] [[(0 : ℝ)]]
    [[(0 : ℝ)]] [[(0 : ℝ)]] ["a"] ["a"] rfl

end PredictMobileLstm
